import Mathlib

set_option linter.unusedVariables false

/-!
Verification development for the rust-web-browser repository
(web_browser_core renderer: HTML tokenizer and tree constructor, CSS rule
parser, layout tree builder and sizing engine).

Rust source is shallowly embedded: iterator loops become fuel-based
recursion, `Rc<RefCell<Node>>` pointer graphs become an index arena,
panics (`expect`, `assert!`, slice-index out of bounds, explicit
`panic!`) become a distinguished `crash` result, and `Vec<char>` /
`String` become `List Char` / `String`.
-/

/-! ## HTML tokens (src/web_browser_core/src/renderer/html/token.rs) -/

/-- Modelled from the spec: `attribute.rs` is not under src/. An Attribute
is a name/value pair built incrementally character-by-character while
tokenizing (spec section 3, "Attribute"). -/
structure Attribute where
  name : String
  value : String
deriving DecidableEq, Repr

/-- Modelled from the spec: `Attribute::new` creates an empty name/value pair. -/
def Attribute.new : Attribute := ⟨"", ""⟩

/-- Modelled from the spec: `Attribute::add_char` appends one character to
the name (when `is_name` holds) or to the value. -/
def Attribute.add_char (a : Attribute) (c : Char) (is_name : Bool) : Attribute :=
  if is_name then { a with name := a.name.push c } else { a with value := a.value.push c }

/-- The `HtmlToken` from token.rs. -/
inductive HtmlToken where
  | startTag (tag : String) (self_closing : Bool) (attributes : List Attribute)
  | endTag (tag : String)
  | char (c : Char)
  | eof
deriving DecidableEq, Repr

/-- The `State` from token.rs: the tokenizer states. -/
inductive State where
  | Data
  | TagOpen
  | EndTagOpen
  | TagName
  | BeforeAttributeName
  | AttributeName
  | AfterAttributeName
  | BeforeAttributeValue
  | AttributeValueDoubleQuoted
  | AttributeValueSingleQuoted
  | AttributeValueUnquoted
  | AfterAttributeValueQuoted
  | SelfClosingStartTag
  | ScriptData
  | ScriptDataLessThanSign
  | ScriptDataEndTagOpen
  | ScriptDataEndTagName
  | TemporaryBuffer
deriving DecidableEq, Repr

/-- The `HtmlTokenizer` state from token.rs. -/
structure HtmlTokenizer where
  state : State
  pos : Nat
  reconsume : Bool
  latest_token : Option HtmlToken
  input : List Char
  buf : String
deriving DecidableEq, Repr

/-- The `HtmlTokenizer::new`. -/
def HtmlTokenizer.new (html : List Char) : HtmlTokenizer :=
  { state := .Data, pos := 0, reconsume := false, latest_token := none,
    input := html, buf := "" }

/-- The `HtmlTokenizer::is_eof`: `self.pos > self.input.len()`. -/
def HtmlTokenizer.is_eof (tk : HtmlTokenizer) : Bool :=
  tk.pos > tk.input.length

/-- One character acquisition at the top of the `next` loop:
`reconsume_input` (reads `input[pos - 1]`, clears the flag) or
`consume_next_input` (reads `input[pos]`, advances `pos`). `none` models the
panic of an out-of-bounds slice index. -/
def readChar (tk : HtmlTokenizer) : Option (Char × HtmlTokenizer) :=
  if tk.reconsume then
    if tk.pos = 0 then none
    else
      match tk.input.get? (tk.pos - 1) with
      | some c => some (c, { tk with reconsume := false })
      | none => none
  else
    match tk.input.get? tk.pos with
    | some c => some (c, { tk with pos := tk.pos + 1 })
    | none => none

/-- The `HtmlTokenizer::create_tag`. -/
def HtmlTokenizer.create_tag (tk : HtmlTokenizer) (start_tag_token : Bool) : HtmlTokenizer :=
  if start_tag_token then
    { tk with latest_token := some (.startTag "" false []) }
  else
    { tk with latest_token := some (.endTag "") }

/-- The `HtmlTokenizer::append_tag_name`; `none` models the assert/panic when
`latest_token` is absent or not a tag token. -/
def HtmlTokenizer.append_tag_name (tk : HtmlTokenizer) (c : Char) : Option HtmlTokenizer :=
  match tk.latest_token with
  | some (.startTag tag sc attrs) =>
      some { tk with latest_token := some (.startTag (tag.push c) sc attrs) }
  | some (.endTag tag) =>
      some { tk with latest_token := some (.endTag (tag.push c)) }
  | _ => none

/-- The `HtmlTokenizer::take_latest_token`; `none` models the assert when
`latest_token` is `None`. -/
def HtmlTokenizer.take_latest_token (tk : HtmlTokenizer) : Option (HtmlToken × HtmlTokenizer) :=
  match tk.latest_token with
  | some t => some (t, { tk with latest_token := none })
  | none => none

/-- The `HtmlTokenizer::start_new_attribute`; `none` models the panic when
`latest_token` is not a start tag. -/
def HtmlTokenizer.start_new_attribute (tk : HtmlTokenizer) : Option HtmlTokenizer :=
  match tk.latest_token with
  | some (.startTag tag sc attrs) =>
      some { tk with latest_token := some (.startTag tag sc (attrs ++ [Attribute.new])) }
  | _ => none

/-- The `HtmlTokenizer::append_attribute`; `none` models the panic/assert when
`latest_token` is not a start tag or has no attribute yet. -/
def HtmlTokenizer.append_attribute (tk : HtmlTokenizer) (c : Char) (is_name : Bool) :
    Option HtmlTokenizer :=
  match tk.latest_token with
  | some (.startTag tag sc attrs) =>
      match attrs.getLast? with
      | some a =>
          let t : HtmlToken := .startTag tag sc (attrs.dropLast ++ [a.add_char c is_name])
          some { tk with latest_token := some t }
      | none => none
  | _ => none

/-- The `HtmlTokenizer::set_self_closing_flag`; `none` models the panic when
`latest_token` is not a start tag. -/
def HtmlTokenizer.set_self_closing_flag (tk : HtmlTokenizer) : Option HtmlTokenizer :=
  match tk.latest_token with
  | some (.startTag tag _ attrs) =>
      some { tk with latest_token := some (.startTag tag true attrs) }
  | _ => none

/-- Result of one `HtmlTokenizer::next` call: a token together with the
updated tokenizer, exhaustion (`None` from the iterator), or a crash
(panic inside the call). -/
inductive TokNext where
  | tok (t : HtmlToken) (tk : HtmlTokenizer)
  | exhausted
  | crash
deriving DecidableEq, Repr

/-- The `loop` body of `HtmlTokenizer::next` (token.rs, `impl Iterator`),
one constructor of `nextAux` per loop iteration; `fuel` only bounds the
iteration count (the source loop terminates on every input, crashing when
it reads past the end). -/
def nextAux : Nat → HtmlTokenizer → TokNext
  | 0, _ => .crash
  | fuel + 1, tk0 =>
    match readChar tk0 with
    | none => .crash
    | some (c, tk) =>
      match tk.state with
      | .Data =>
          if c = '<' then nextAux fuel { tk with state := .TagOpen }
          else if tk.is_eof then .tok .eof tk
          else .tok (.char c) tk
      | .TagOpen =>
          if c = '/' then nextAux fuel { tk with state := .EndTagOpen }
          else if c.isAlpha then
            nextAux fuel (({ tk with reconsume := true, state := .TagName }).create_tag true)
          else if tk.is_eof then .tok .eof tk
          else nextAux fuel { tk with reconsume := true, state := .Data }
      | .EndTagOpen =>
          if tk.is_eof then .tok .eof tk
          else if c.isAlpha then
            nextAux fuel (({ tk with reconsume := true, state := .TagName }).create_tag false)
          else nextAux fuel tk
      | .TagName =>
          if c = ' ' then nextAux fuel { tk with state := .BeforeAttributeName }
          else if c = '/' then nextAux fuel { tk with state := .SelfClosingStartTag }
          else if c = '>' then
            match ({ tk with state := .Data }).take_latest_token with
            | some (t, tk2) => .tok t tk2
            | none => .crash
          else if c.isUpper then
            match tk.append_tag_name c.toLower with
            | some tk2 => nextAux fuel tk2
            | none => .crash
          else if tk.is_eof then .tok .eof tk
          else
            match tk.append_tag_name c with
            | some tk2 => nextAux fuel tk2
            | none => .crash
      | .BeforeAttributeName =>
          if c = '/' ∨ c = '>' ∨ tk.is_eof then
            nextAux fuel { tk with reconsume := true, state := .AfterAttributeName }
          else
            match ({ tk with reconsume := true, state := .AttributeName }).start_new_attribute with
            | some tk2 => nextAux fuel tk2
            | none => .crash
      | .AttributeName =>
          if c = ' ' ∨ c = '/' ∨ c = '>' ∨ tk.is_eof then
            nextAux fuel { tk with reconsume := true, state := .AfterAttributeName }
          else if c = '=' then nextAux fuel { tk with state := .BeforeAttributeValue }
          else if c.isUpper then
            match tk.append_attribute c.toLower true with
            | some tk2 => nextAux fuel tk2
            | none => .crash
          else
            match tk.append_attribute c true with
            | some tk2 => nextAux fuel tk2
            | none => .crash
      | .AfterAttributeName =>
          if c = ' ' then nextAux fuel tk
          else if c = '/' then nextAux fuel { tk with state := .SelfClosingStartTag }
          else if c = '=' then nextAux fuel { tk with state := .BeforeAttributeValue }
          else if c = '>' then
            match ({ tk with state := .Data }).take_latest_token with
            | some (t, tk2) => .tok t tk2
            | none => .crash
          else if tk.is_eof then .tok .eof tk
          else
            match ({ tk with reconsume := true, state := .AttributeName }).start_new_attribute with
            | some tk2 => nextAux fuel tk2
            | none => .crash
      | .BeforeAttributeValue =>
          if c = ' ' then nextAux fuel tk
          else if c = '"' then nextAux fuel { tk with state := .AttributeValueDoubleQuoted }
          else if c = '\'' then nextAux fuel { tk with state := .AttributeValueSingleQuoted }
          else nextAux fuel { tk with reconsume := true, state := .AttributeValueUnquoted }
      | .AttributeValueDoubleQuoted =>
          if c = '"' then nextAux fuel { tk with state := .AfterAttributeValueQuoted }
          else if tk.is_eof then .tok .eof tk
          else
            match tk.append_attribute c false with
            | some tk2 => nextAux fuel tk2
            | none => .crash
      | .AttributeValueSingleQuoted =>
          if c = '\'' then nextAux fuel { tk with state := .AfterAttributeValueQuoted }
          else if tk.is_eof then .tok .eof tk
          else
            match tk.append_attribute c false with
            | some tk2 => nextAux fuel tk2
            | none => .crash
      | .AttributeValueUnquoted =>
          if c = ' ' then nextAux fuel { tk with state := .BeforeAttributeName }
          else if c = '>' then
            match ({ tk with state := .Data }).take_latest_token with
            | some (t, tk2) => .tok t tk2
            | none => .crash
          else if tk.is_eof then .tok .eof tk
          else
            match tk.append_attribute c false with
            | some tk2 => nextAux fuel tk2
            | none => .crash
      | .AfterAttributeValueQuoted =>
          if c = ' ' then nextAux fuel { tk with state := .BeforeAttributeName }
          else if c = '/' then nextAux fuel { tk with state := .SelfClosingStartTag }
          else if c = '>' then
            match ({ tk with state := .Data }).take_latest_token with
            | some (t, tk2) => .tok t tk2
            | none => .crash
          else if tk.is_eof then .tok .eof tk
          else nextAux fuel { tk with reconsume := true, state := .BeforeAttributeName }
      | .SelfClosingStartTag =>
          if c = '>' then
            match tk.set_self_closing_flag with
            | some tk2 =>
                match ({ tk2 with state := .Data }).take_latest_token with
                | some (t, tk3) => .tok t tk3
                | none => .crash
            | none => .crash
          else if tk.is_eof then .tok .eof tk
          else nextAux fuel tk
      | .ScriptData =>
          if c = '<' then nextAux fuel { tk with state := .ScriptDataLessThanSign }
          else if tk.is_eof then .tok .eof tk
          else .tok (.char c) tk
      | .ScriptDataLessThanSign =>
          if c = '/' then nextAux fuel { tk with buf := "", state := .ScriptDataEndTagOpen }
          else .tok (.char '<') { tk with reconsume := true, state := .ScriptData }
      | .ScriptDataEndTagOpen =>
          if c.isAlpha then
            nextAux fuel (({ tk with reconsume := true, state := .ScriptDataEndTagName }).create_tag false)
          else .tok (.char '<') { tk with reconsume := true, state := .ScriptData }
      | .ScriptDataEndTagName =>
          if c = '>' then
            match ({ tk with state := .Data }).take_latest_token with
            | some (t, tk2) => .tok t tk2
            | none => .crash
          else if c.isAlpha then
            match ({ tk with buf := tk.buf.push c }).append_tag_name c.toLower with
            | some tk2 => nextAux fuel tk2
            | none => .crash
          else nextAux fuel { tk with state := .TemporaryBuffer, buf := ("</" ++ tk.buf).push c }
      | .TemporaryBuffer =>
          if tk.buf.length = 0 then
            .tok (.char '<') { tk with reconsume := true, state := .ScriptData }
          else
            match tk.buf.toList.head? with
            | some c0 =>
                .tok (.char c0)
                  { tk with reconsume := true, buf := ⟨tk.buf.toList.drop 1⟩ }
            | none => .crash

/-- The `HtmlTokenizer::next`: the entry guard (`pos >= input.len()` returns
`None`) followed by the loop. The fuel is an upper bound on loop
iterations, generous for every input. -/
def nextTok (tk : HtmlTokenizer) : TokNext :=
  if tk.pos ≥ tk.input.length then .exhausted
  else nextAux (4 * (tk.input.length + 2)) tk

/-- Repeatedly call `next` and collect tokens until exhaustion; the
Boolean records whether a call crashed (fuel exhaustion is also reported
as a crash, but the wrapper below supplies ample fuel). -/
def runTokens : Nat → HtmlTokenizer → List HtmlToken × Bool
  | 0, _ => ([], true)
  | fuel + 1, tk =>
    match nextTok tk with
    | .exhausted => ([], false)
    | .crash => ([], true)
    | .tok t tk2 =>
        let r := runTokens fuel tk2
        (t :: r.1, r.2)

/-- The full token sequence the tokenizer emits for an input. -/
def tokensOf (s : List Char) : List HtmlToken :=
  (runTokens (6 * s.length + 8) (HtmlTokenizer.new s)).1

/-- Whether tokenizing the input crashes (a panic inside some `next` call). -/
def tokenizerCrashes (s : List Char) : Bool :=
  (runTokens (6 * s.length + 8) (HtmlTokenizer.new s)).2

/-! ## DOM nodes (src/web_browser_core/src/renderer/dom/node.rs) -/

/-- The `ElementKind` from node.rs (note: there is no variant for `a`). -/
inductive ElementKind where
  | html
  | head
  | style
  | script
  | body
  | p
  | h1
  | h2
deriving DecidableEq, Repr

/-- The `ElementKind::from_str`; `none` models the `Err` case
("unimplemented element name"). -/
def ElementKind.from_str (s : String) : Option ElementKind :=
  if s = "html" then some .html
  else if s = "head" then some .head
  else if s = "style" then some .style
  else if s = "script" then some .script
  else if s = "body" then some .body
  else if s = "p" then some .p
  else if s = "h1" then some .h1
  else if s = "h2" then some .h2
  else none

/-- The `Element` from node.rs. -/
structure Element where
  kind : ElementKind
  attributes : List Attribute
deriving DecidableEq, Repr

/-- The `Element::new`; `none` models the `expect` panic when
`ElementKind::from_str` fails. -/
def Element.new (element_name : String) (attributes : List Attribute) : Option Element :=
  (ElementKind.from_str element_name).map (fun k => ⟨k, attributes⟩)

/-- The `NodeKind` from node.rs. -/
inductive NodeKind where
  | document
  | element (e : Element)
  | text (s : String)
deriving DecidableEq, Repr

/-- The `Node::element_kind` on a node kind. -/
def NodeKind.element_kind : NodeKind → Option ElementKind
  | .element e => some e.kind
  | _ => none

/-- One DOM node of the parser's tree. The `Rc<RefCell<Node>>` pointer
graph is embedded as an arena of nodes addressed by index; `Weak` and
owning links both become `Option` indices (`Weak::new()` = `none`). -/
structure PNode where
  kind : NodeKind
  parent : Option Nat
  first_child : Option Nat
  last_child : Option Nat
  previous_sibling : Option Nat
  next_sibling : Option Nat
deriving DecidableEq, Repr

/-- The `Node::new`. -/
def PNode.new (kind : NodeKind) : PNode :=
  ⟨kind, none, none, none, none, none⟩

/-- Update one arena slot (a `borrow_mut` field write). -/
def modifyNode (ns : List PNode) (i : Nat) (f : PNode → PNode) : List PNode :=
  match ns.get? i with
  | some n => ns.set i (f n)
  | none => ns

/-- Element kind of the arena node at an index. -/
def elementKindAt (ns : List PNode) (i : Nat) : Option ElementKind :=
  match ns.get? i with
  | some n => n.kind.element_kind
  | none => none

/-! ## Tree constructor (src/web_browser_core/src/renderer/html/parser.rs) -/

/-- The `InsertionMode` from parser.rs. -/
inductive InsertionMode where
  | Initial
  | BeforeHtml
  | BeforeHead
  | InHead
  | AfterHead
  | InBody
  | Text
  | AfterBody
  | AfterAfterBody
deriving DecidableEq, Repr

/-- The `HtmlParser` from parser.rs. The `Window` is the arena itself whose
index 0 is the Document root. -/
structure HtmlParser where
  nodes : List PNode
  mode : InsertionMode
  original_insertion_mode : InsertionMode
  stack_of_open_elements : List Nat
  t : HtmlTokenizer
deriving DecidableEq, Repr

/-- The `HtmlParser::new`: a fresh `Window` owning one Document node. -/
def HtmlParser.new (t : HtmlTokenizer) : HtmlParser :=
  { nodes := [PNode.new .document], mode := .Initial,
    original_insertion_mode := .Initial, stack_of_open_elements := [], t := t }

/-- The `loop` in `HtmlParser::insert_element` that walks to the last
sibling; `none` models the `unimplemented!` arm (unreachable). -/
def lastSiblingFrom (ns : List PNode) : Nat → Nat → Option Nat
  | 0, _ => none
  | fuel + 1, i =>
    match ns.get? i with
    | none => none
    | some n =>
      match n.next_sibling with
      | none => some i
      | some j => lastSiblingFrom ns fuel j

/-- The `HtmlParser::insert_element`: create an element node for the tag and
attach it under the open-elements-stack top (or the Document when the
stack is empty); `none` models the panic of `Element::new` for an
unimplemented tag name. Note the source sets the new node's
`previous_sibling` to the parent's FIRST child. -/
def HtmlParser.insert_element (p : HtmlParser) (tag : String) (attributes : List Attribute) :
    Option HtmlParser :=
  let current := p.stack_of_open_elements.getLast?.getD 0
  match Element.new tag attributes with
  | none => none
  | some e =>
    let newId := p.nodes.length
    let node0 := PNode.new (.element e)
    match p.nodes.get? current with
    | none => none
    | some cur =>
      match cur.first_child with
      | some fc =>
        match lastSiblingFrom p.nodes (p.nodes.length + 1) fc with
        | none => none
        | some lastSib =>
          let ns1 := modifyNode p.nodes lastSib (fun n => { n with next_sibling := some newId })
          let node1 := { node0 with previous_sibling := some fc, parent := some current }
          let ns2 := modifyNode ns1 current (fun n => { n with last_child := some newId })
          let stack2 := p.stack_of_open_elements ++ [newId]
          some { p with nodes := ns2 ++ [node1], stack_of_open_elements := stack2 }
      | none =>
        let ns1 := modifyNode p.nodes current
          (fun n => { n with first_child := some newId, last_child := some newId })
        let node1 := { node0 with parent := some current }
        let stack2 := p.stack_of_open_elements ++ [newId]
        some { p with nodes := ns1 ++ [node1], stack_of_open_elements := stack2 }

/-- The `HtmlParser::insert_char`: extend a trailing text node, drop
whitespace, or create a new text node. Note the source attaches the new
text node as `next_sibling` of the parent's FIRST child (no walk to the
last sibling, unlike `insert_element`). -/
def HtmlParser.insert_char (p : HtmlParser) (c : Char) : HtmlParser :=
  match p.stack_of_open_elements.getLast? with
  | none => p
  | some current =>
    match p.nodes.get? current with
    | none => p
    | some cur =>
      match cur.kind with
      | .text s =>
        let ns1 := modifyNode p.nodes current (fun n => { n with kind := .text (s.push c) })
        { p with nodes := ns1 }
      | _ =>
        if c = '\n' ∨ c = ' ' then p
        else
          let newId := p.nodes.length
          let node0 := PNode.new (.text (String.push "" c))
          match cur.first_child with
          | some fc =>
            let ns1 := modifyNode p.nodes fc (fun n => { n with next_sibling := some newId })
            let node1 := { node0 with previous_sibling := some fc, parent := some current }
            let ns2 := modifyNode ns1 current (fun n => { n with last_child := some newId })
            let stack2 := p.stack_of_open_elements ++ [newId]
            { p with nodes := ns2 ++ [node1], stack_of_open_elements := stack2 }
          | none =>
            let ns1 := modifyNode p.nodes current
              (fun n => { n with first_child := some newId, last_child := some newId })
            let node1 := { node0 with parent := some current }
            let stack2 := p.stack_of_open_elements ++ [newId]
            { p with nodes := ns1 ++ [node1], stack_of_open_elements := stack2 }

/-- The `HtmlParser::pop_current_node`. -/
def HtmlParser.pop_current_node (p : HtmlParser) (element_kind : ElementKind) :
    Bool × HtmlParser :=
  match p.stack_of_open_elements.getLast? with
  | none => (false, p)
  | some current =>
    if elementKindAt p.nodes current = some element_kind then
      (true, { p with stack_of_open_elements := p.stack_of_open_elements.dropLast })
    else (false, p)

/-- The `HtmlParser::contain_in_stack`. -/
def HtmlParser.contain_in_stack (p : HtmlParser) (element_kind : ElementKind) : Bool :=
  p.stack_of_open_elements.any (fun i => elementKindAt p.nodes i = some element_kind)

/-- The pop loop of `HtmlParser::pop_until`. -/
def popUntilLoop (ns : List PNode) (element_kind : ElementKind) :
    Nat → List Nat → List Nat
  | 0, stack => stack
  | fuel + 1, stack =>
    match stack.getLast? with
    | none => stack
    | some current =>
      if elementKindAt ns current = some element_kind then stack.dropLast
      else popUntilLoop ns element_kind fuel stack.dropLast

/-- The `HtmlParser::pop_until`; `none` models the `assert!` panic when the
stack holds no element of the requested kind. -/
def HtmlParser.pop_until (p : HtmlParser) (element_kind : ElementKind) : Option HtmlParser :=
  if p.contain_in_stack element_kind then
    let stack2 := popUntilLoop p.nodes element_kind (p.stack_of_open_elements.length + 1)
      p.stack_of_open_elements
    some { p with stack_of_open_elements := stack2 }
  else none

/-- Result of `HtmlParser::construct_tree`: the final arena (the `Window`
and its DOM tree) or a crash (any panic during parsing or tokenizing). -/
inductive PRes where
  | ok (nodes : List PNode)
  | crash
deriving DecidableEq, Repr

/-- Advance the token stream (`token = self.t.next()`) and continue the
parse loop through `k`. -/
def withNextToken (p : HtmlParser) (k : Option HtmlToken → HtmlParser → PRes) : PRes :=
  match nextTok p.t with
  | .crash => .crash
  | .exhausted => k none p
  | .tok t tk => k (some t) { p with t := tk }

/-- The `while token.is_some()` loop of `HtmlParser::construct_tree`, one
fuel unit per iteration. A `none` token exits the loop and returns the
window, mirroring the loop guard together with the
`Some(HtmlToken::Eof) | None` arms. -/
def construct_treeAux : Nat → Option HtmlToken → HtmlParser → PRes
  | 0, _, _ => .crash
  | fuel + 1, token, p =>
    match token with
    | none => .ok p.nodes
    | some tok =>
      match p.mode with
      | .Initial =>
        match tok with
        | .char _ => withNextToken p (construct_treeAux fuel)
        | _ => construct_treeAux fuel token { p with mode := .BeforeHtml }
      | .BeforeHtml =>
        match tok with
        | .char c =>
          if c = ' ' ∨ c = '\n' then withNextToken p (construct_treeAux fuel)
          else
            match p.insert_element "html" [] with
            | none => .crash
            | some p2 => construct_treeAux fuel token { p2 with mode := .BeforeHead }
        | .startTag tag _ attrs =>
          if tag = "html" then
            match p.insert_element tag attrs with
            | none => .crash
            | some p2 => withNextToken { p2 with mode := .BeforeHead } (construct_treeAux fuel)
          else
            match p.insert_element "html" [] with
            | none => .crash
            | some p2 => construct_treeAux fuel token { p2 with mode := .BeforeHead }
        | .eof => .ok p.nodes
        | _ =>
          match p.insert_element "html" [] with
          | none => .crash
          | some p2 => construct_treeAux fuel token { p2 with mode := .BeforeHead }
      | .BeforeHead =>
        match tok with
        | .char c =>
          if c = ' ' ∨ c = '\n' then withNextToken p (construct_treeAux fuel)
          else
            match p.insert_element "head" [] with
            | none => .crash
            | some p2 => construct_treeAux fuel token { p2 with mode := .InHead }
        | .startTag tag _ attrs =>
          if tag = "head" then
            match p.insert_element tag attrs with
            | none => .crash
            | some p2 => withNextToken { p2 with mode := .InHead } (construct_treeAux fuel)
          else
            match p.insert_element "head" [] with
            | none => .crash
            | some p2 => construct_treeAux fuel token { p2 with mode := .InHead }
        | .eof => .ok p.nodes
        | _ =>
          match p.insert_element "head" [] with
          | none => .crash
          | some p2 => construct_treeAux fuel token { p2 with mode := .InHead }
      | .InHead =>
        match tok with
        | .char c =>
          if c = ' ' ∨ c = '\n' then withNextToken (p.insert_char c) (construct_treeAux fuel)
          else withNextToken p (construct_treeAux fuel)
        | .startTag tag _ attrs =>
          if tag = "style" ∨ tag = "script" then
            match p.insert_element tag attrs with
            | none => .crash
            | some p2 =>
              withNextToken
                { p2 with original_insertion_mode := p2.mode, mode := .Text }
                (construct_treeAux fuel)
          else if tag = "body" then
            match p.pop_until .head with
            | none => .crash
            | some p2 => construct_treeAux fuel token { p2 with mode := .AfterHead }
          else
            match ElementKind.from_str tag with
            | some _ =>
              match p.pop_until .head with
              | none => .crash
              | some p2 => construct_treeAux fuel token { p2 with mode := .AfterHead }
            | none => withNextToken p (construct_treeAux fuel)
        | .endTag tag =>
          if tag = "head" then
            withNextToken { p with mode := .AfterHead } (fun token2 p2 =>
              match p2.pop_until .head with
              | none => .crash
              | some p3 => construct_treeAux fuel token2 p3)
          else withNextToken p (construct_treeAux fuel)
        | .eof => .ok p.nodes
      | .AfterHead =>
        match tok with
        | .char c =>
          if c = ' ' ∨ c = '\n' then withNextToken (p.insert_char c) (construct_treeAux fuel)
          else
            match p.insert_element "body" [] with
            | none => .crash
            | some p2 => construct_treeAux fuel token { p2 with mode := .InBody }
        | .startTag tag _ attrs =>
          if tag = "body" then
            match p.insert_element tag attrs with
            | none => .crash
            | some p2 => withNextToken { p2 with mode := .InBody } (construct_treeAux fuel)
          else
            match p.insert_element "body" [] with
            | none => .crash
            | some p2 => construct_treeAux fuel token { p2 with mode := .InBody }
        | .eof => .ok p.nodes
        | _ =>
          match p.insert_element "body" [] with
          | none => .crash
          | some p2 => construct_treeAux fuel token { p2 with mode := .InBody }
      | .InBody =>
        match tok with
        | .startTag tag _ attrs =>
          if tag = "p" ∨ tag = "h1" ∨ tag = "h2" ∨ tag = "a" then
            match p.insert_element tag attrs with
            | none => .crash
            | some p2 => withNextToken p2 (construct_treeAux fuel)
          else withNextToken p (construct_treeAux fuel)
        | .endTag tag =>
          if tag = "body" then
            withNextToken { p with mode := .AfterBody } (fun token2 p2 =>
              if ¬ p2.contain_in_stack .body then construct_treeAux fuel token2 p2
              else
                match p2.pop_until .body with
                | none => .crash
                | some p3 => construct_treeAux fuel token2 p3)
          else if tag = "html" then
            match p.pop_current_node .body with
            | (true, p2) =>
              let p3 := { p2 with mode := .AfterBody }
              match p3.pop_current_node .html with
              | (true, p4) => construct_treeAux fuel token p4
              | (false, _) => .crash
            | (false, p2) => withNextToken p2 (construct_treeAux fuel)
          else if tag = "p" ∨ tag = "h1" ∨ tag = "h2" ∨ tag = "a" then
            match ElementKind.from_str tag with
            | none => .crash
            | some ek =>
              withNextToken p (fun token2 p2 =>
                match p2.pop_until ek with
                | none => .crash
                | some p3 => construct_treeAux fuel token2 p3)
          else withNextToken p (construct_treeAux fuel)
        | .char c => withNextToken (p.insert_char c) (construct_treeAux fuel)
        | .eof => .ok p.nodes
      | .Text =>
        match tok with
        | .eof => .ok p.nodes
        | .endTag tag =>
          if tag = "style" then
            match p.pop_until .style with
            | none => .crash
            | some p2 =>
              withNextToken { p2 with mode := p2.original_insertion_mode }
                (construct_treeAux fuel)
          else if tag = "script" then
            match p.pop_until .script with
            | none => .crash
            | some p2 =>
              withNextToken { p2 with mode := p2.original_insertion_mode }
                (construct_treeAux fuel)
          else construct_treeAux fuel token { p with mode := p.original_insertion_mode }
        | .char c => withNextToken (p.insert_char c) (construct_treeAux fuel)
        | _ => construct_treeAux fuel token { p with mode := p.original_insertion_mode }
      | .AfterBody =>
        match tok with
        | .char _ => withNextToken p (construct_treeAux fuel)
        | .endTag tag =>
          if tag = "html" then
            withNextToken { p with mode := .AfterAfterBody } (construct_treeAux fuel)
          else construct_treeAux fuel token { p with mode := .InBody }
        | .eof => .ok p.nodes
        | _ => construct_treeAux fuel token { p with mode := .InBody }
      | .AfterAfterBody =>
        match tok with
        | .char _ => withNextToken p (construct_treeAux fuel)
        | .eof => .ok p.nodes
        | _ => construct_treeAux fuel token { p with mode := .InBody }

/-- The `HtmlParser::construct_tree` driven from raw markup: tokenize and
build the DOM tree. The fuel bounds loop iterations generously. -/
def parseHtml (s : List Char) : PRes :=
  let p := HtmlParser.new (HtmlTokenizer.new s)
  withNextToken p (construct_treeAux (20 * s.length + 50))

/-- Walk a `next_sibling` chain in the arena, collecting node kinds. -/
def chainKinds (ns : List PNode) : Nat → Option Nat → List NodeKind
  | 0, _ => []
  | _, none => []
  | fuel + 1, some j =>
    match ns.get? j with
    | none => []
    | some nd => nd.kind :: chainKinds ns fuel nd.next_sibling

/-- Follow the `first_child`/`next_sibling` chain of the node at an index
and list the node kinds of the children in document order. -/
def childChainKinds (ns : List PNode) (i : Nat) : List NodeKind :=
  match ns.get? i with
  | none => []
  | some n => chainKinds ns (ns.length + 1) n.first_child

/-- Index of the `body` element in the final arena, if any. -/
def bodyIndexOf (ns : List PNode) : Option Nat :=
  ns.findIdx? (fun n => n.kind.element_kind = some .body)

/-- Kinds of the `body` element's children (following the
first-child/next-sibling chain) in a parse result. -/
def bodyChildrenOf (r : PRes) : Option (List NodeKind) :=
  match r with
  | .crash => none
  | .ok ns =>
    match bodyIndexOf ns with
    | none => none
    | some i => some (childChainKinds ns i)

/-- How many `p` elements exist in the arena of a parse result
(reachable from the tree or not). -/
def pElementCount (r : PRes) : Nat :=
  match r with
  | .crash => 0
  | .ok ns => (ns.filter (fun n => n.kind.element_kind = some .p)).length

/-! ## CSS tokens and rule parser (src/web_browser_core/src/renderer/css) -/

/-- The `CssToken` from css/token.rs. The `Number` payload is `f64` in the
source; it is embedded as `Int` here (no claim depends on numeric
payloads). -/
inductive CssToken where
  | hashToken (s : String)
  | delim (c : Char)
  | number (v : Int)
  | colon
  | semiColon
  | openParenthesis
  | closeParenthesis
  | openCurly
  | closeCurly
  | ident (s : String)
  | stringToken (s : String)
  | atKeyword (s : String)
deriving DecidableEq, Repr

/-- The `Selector` from cssom.rs. -/
inductive Selector where
  | typeSelector (s : String)
  | classSelector (s : String)
  | idSelector (s : String)
  | unknownSelector
deriving DecidableEq, Repr

/-- The `Declaration` from cssom.rs (`ComponentValue` is `CssToken`). -/
structure Declaration where
  property : String
  value : CssToken
deriving DecidableEq, Repr

/-- The `Declaration::new`. -/
def Declaration.new : Declaration := ⟨"", .ident ""⟩

/-- The `QualifiedRule` from cssom.rs. The source initializer for the default
selector is a malformed placeholder expression; following the spec's
design note it is taken as `UnknownSelector`. -/
structure QualifiedRule where
  selector : Selector
  declarations : List Declaration
deriving DecidableEq, Repr

/-- The `QualifiedRule::new` (default selector per the spec's design note). -/
def QualifiedRule.new : QualifiedRule := ⟨.unknownSelector, []⟩

/-- The `StyleSheet` from cssom.rs. -/
structure StyleSheet where
  rules : List QualifiedRule
deriving DecidableEq, Repr

/-- Result of a `CssParser` routine: a value plus the remaining token
stream, or a crash (a panic, or the nonterminating skip-to-open-brace
loop running off the end of the input). -/
inductive CssRes (α : Type) where
  | ok (a : α) (rest : List CssToken)
  | crash
deriving DecidableEq, Repr

/-- Modelled from the spec: `CssParser::consume_ident` is not under src/
(only its callers are). Per spec section 4.4 a declaration is
`identifier : value` and a class selector takes "the identifier
immediately following", so it consumes one token and yields its
identifier name; any other token is an internal error. -/
def consume_ident : List CssToken → CssRes String
  | .ident s :: rest => .ok s rest
  | _ => .crash

/-- Modelled from the spec: `CssParser::consume_component_value` is not
under src/. Per spec section 3 a declaration value "is any style-token",
so it consumes and returns the next token. -/
def consume_component_value : List CssToken → CssRes CssToken
  | t :: rest => .ok t rest
  | [] => .crash

/-- The `while self.t.peek() != Some(&CssToken::OpenCurly)` skip loop in
`CssParser::consume_selector`. When the input runs out the source loops
forever; that divergence is modelled as `crash`. -/
def skipToOpenCurly : List CssToken → CssRes Unit
  | [] => .crash
  | t :: rest =>
    if t = CssToken.openCurly then .ok () (t :: rest)
    else skipToOpenCurly rest

/-- The `CssParser::consume_selector`. A `Delim` other than `.` hits the
source's explicit parse-error panic. -/
def consume_selector (ts : List CssToken) : CssRes Selector :=
  match ts with
  | [] => .crash
  | .hashToken v :: rest => .ok (.idSelector (⟨v.toList.drop 1⟩ : String)) rest
  | .delim d :: rest =>
    if d = '.' then
      match consume_ident rest with
      | .ok name rest2 => .ok (.classSelector name) rest2
      | .crash => .crash
    else .crash
  | .ident i :: rest =>
    match rest.head? with
    | some .colon =>
      match skipToOpenCurly rest with
      | .ok _ rest2 => .ok (.typeSelector i) rest2
      | .crash => .crash
    | _ => .ok (.typeSelector i) rest
  | .atKeyword _ :: rest =>
    match skipToOpenCurly rest with
    | .ok _ rest2 => .ok .unknownSelector rest2
    | .crash => .crash
  | _ :: rest => .ok .unknownSelector rest.tail

/-- The `CssParser::consume_declaration`. -/
def consume_declaration (ts : List CssToken) : CssRes (Option Declaration) :=
  match ts.head? with
  | none => .ok none ts
  | some _ =>
    match consume_ident ts with
    | .crash => .crash
    | .ok property rest =>
      match rest with
      | .colon :: rest2 =>
        match consume_component_value rest2 with
        | .ok v rest3 => .ok (some { property := property, value := v }) rest3
        | .crash => .crash
      | _ :: rest2 => .ok none rest2
      | [] => .ok none []

/-- The loop of `CssParser::consume_list_of_declarations`. -/
def consume_list_of_declarationsAux :
    Nat → List Declaration → List CssToken → CssRes (List Declaration)
  | 0, _, _ => .crash
  | fuel + 1, acc, ts =>
    match ts with
    | [] => .ok acc []
    | .closeCurly :: rest => .ok acc rest
    | .semiColon :: rest => consume_list_of_declarationsAux fuel acc rest
    | .ident i :: rest =>
      match consume_declaration (.ident i :: rest) with
      | .crash => .crash
      | .ok (some d) rest2 => consume_list_of_declarationsAux fuel (acc ++ [d]) rest2
      | .ok none rest2 => consume_list_of_declarationsAux fuel acc rest2
    | _ :: rest => consume_list_of_declarationsAux fuel acc rest

/-- The `CssParser::consume_list_of_declarations`. -/
def consume_list_of_declarations (ts : List CssToken) : CssRes (List Declaration) :=
  consume_list_of_declarationsAux (ts.length + 1) [] ts

/-- The loop of `CssParser::consume_qualified_rule`, accumulating into
`rule`. -/
def consume_qualified_ruleAux :
    Nat → QualifiedRule → List CssToken → CssRes (Option QualifiedRule)
  | 0, _, _ => .crash
  | fuel + 1, rule, ts =>
    match ts with
    | [] => .ok none []
    | .openCurly :: rest =>
      match consume_list_of_declarations rest with
      | .crash => .crash
      | .ok ds rest2 => .ok (some { rule with declarations := ds }) rest2
    | _ =>
      match consume_selector ts with
      | .crash => .crash
      | .ok sel rest => consume_qualified_ruleAux fuel { rule with selector := sel } rest

/-- The `CssParser::consume_qualified_rule`. -/
def consume_qualified_rule (ts : List CssToken) : CssRes (Option QualifiedRule) :=
  consume_qualified_ruleAux (ts.length + 1) QualifiedRule.new ts

/-- The loop of `CssParser::consume_list_of_rules`. -/
def consume_list_of_rulesAux :
    Nat → List QualifiedRule → List CssToken → CssRes (List QualifiedRule)
  | 0, _, _ => .crash
  | fuel + 1, rules, ts =>
    match ts with
    | [] => .ok rules []
    | .atKeyword k :: rest =>
      match consume_qualified_rule (.atKeyword k :: rest) with
      | .crash => .crash
      | .ok _ rest2 => consume_list_of_rulesAux fuel rules rest2
    | _ =>
      match consume_qualified_rule ts with
      | .crash => .crash
      | .ok (some r) rest2 => consume_list_of_rulesAux fuel (rules ++ [r]) rest2
      | .ok none _ => .ok rules []

/-- The `CssParser::consume_list_of_rules`. -/
def consume_list_of_rules (ts : List CssToken) : CssRes (List QualifiedRule) :=
  consume_list_of_rulesAux (ts.length + 1) [] ts

/-- The `CssParser::parse_stylesheet` over a style-token input; `none` models
a crash during rule-list consumption. -/
def parse_stylesheet (ts : List CssToken) : Option StyleSheet :=
  match consume_list_of_rules ts with
  | .ok rules _ => some ⟨rules⟩
  | .crash => none

/-! ## Computed style (renderer/layout/computed_style.rs is not under src/;
the definitions below are modelled from the spec, sections 3 and 4.6/4.7) -/

/-- The `DisplayType` (referenced by layout_object.rs; definition not under
src/). -/
inductive DisplayType where
  | block
  | inline
  | displayNone
deriving DecidableEq, Repr

/-- Modelled from the spec: `DisplayType::from_str`; the supported
`display` keywords of the block/inline model, anything else is an error
(the caller in layout_object.rs maps the error to `DisplayNone`). -/
def DisplayType.from_str (s : String) : Option DisplayType :=
  if s = "block" then some .block
  else if s = "inline" then some .inline
  else if s = "none" then some .displayNone
  else none

/-- The `FontSize` (referenced by `compute_size`; definition not under src/). -/
inductive FontSize where
  | medium
  | xLarge
  | xxLarge
deriving DecidableEq, Repr

/-- Modelled from the spec: a color is resolved "either as a named
color/keyword identifier or as a `#RRGGBB`-style hash token"
(spec section 4.6). -/
structure Color where
  name : String
  code : String
deriving DecidableEq, Repr

/-- Modelled from the spec: the built-in default background color. -/
def Color.white : Color := ⟨"white", "#ffffff"⟩

/-- Modelled from the spec: the built-in default text color. -/
def Color.black : Color := ⟨"black", "#000000"⟩

/-- Modelled from the spec: `Color::from_name` resolves a known color
keyword and rejects anything else. -/
def Color.from_name (name : String) : Option Color :=
  if name = "white" then some Color.white
  else if name = "black" then some Color.black
  else if name = "red" then some ⟨"red", "#ff0000"⟩
  else if name = "green" then some ⟨"green", "#008000"⟩
  else if name = "blue" then some ⟨"blue", "#0000ff"⟩
  else none

/-- Modelled from the spec: `Color::from_code` accepts a
`#RRGGBB`-style code. -/
def Color.from_code (code : String) : Option Color :=
  if code.startsWith "#" ∧ code.length = 7 then some ⟨"", code⟩ else none

/-- Modelled from the spec: `ComputedStyle` holds the four supported
properties, each unset until cascading/defaulting fills it
(spec section 3, "ComputedStyle"). -/
structure ComputedStyle where
  background_color : Option Color
  color : Option Color
  display : Option DisplayType
  font_size : Option FontSize
deriving DecidableEq, Repr

/-- The `ComputedStyle::new`: all properties unset. -/
def ComputedStyle.new : ComputedStyle := ⟨none, none, none, none⟩

/-- Modelled from the spec: defaulting resolves each unset property by
inheriting the parent's computed value, or a built-in default (white
background, black text, block display, medium font) if there is no parent
or no inherited value (spec sections 3 and 4.6). The node argument
mirrors the source signature `defaulting(&node, parent_style)`. -/
def ComputedStyle.defaulting (s : ComputedStyle) (nk : NodeKind)
    (parent_style : Option ComputedStyle) : ComputedStyle :=
  { background_color :=
      some ((s.background_color.orElse fun _ =>
        (parent_style.bind fun ps => ps.background_color)).getD Color.white),
    color :=
      some ((s.color.orElse fun _ =>
        (parent_style.bind fun ps => ps.color)).getD Color.black),
    display :=
      some ((s.display.orElse fun _ =>
        (parent_style.bind fun ps => ps.display)).getD .block),
    font_size :=
      some ((s.font_size.orElse fun _ =>
        (parent_style.bind fun ps => ps.font_size)).getD .medium) }

/-! ## Layout objects (src/web_browser_core/src/renderer/layout/layout_object.rs) -/

/-- The `LayoutObjectKind` from layout_object.rs. -/
inductive LayoutObjectKind where
  | block
  | inline
  | text
deriving DecidableEq, Repr

/-- Modelled from the spec: `ElementKind` to its tag-name string (the
`to_string` used by `is_node_selected` is not under src/; the spec says a
TypeSelector "compares against the element's tag kind name"). -/
def ElementKind.to_string : ElementKind → String
  | .html => "html"
  | .head => "head"
  | .style => "style"
  | .script => "script"
  | .body => "body"
  | .p => "p"
  | .h1 => "h1"
  | .h2 => "h2"

/-- The `LayoutObject::is_node_selected` from layout_object.rs, with the
layout object's underlying DOM node kind passed explicitly. -/
def is_node_selected (nk : NodeKind) (selector : Selector) : Bool :=
  match nk with
  | .element e =>
    match selector with
    | .typeSelector type_name => e.kind.to_string = type_name
    | .classSelector class_name =>
      e.attributes.any fun attr => attr.name = "class" ∧ attr.value = class_name
    | .idSelector id_name =>
      e.attributes.any fun attr => attr.name = "id" ∧ attr.value = id_name
    | .unknownSelector => false
  | _ => false

/-- The `LayoutObject::cascading_style` from layout_object.rs: apply one
rule's declarations to the style, later declarations overriding earlier
ones; unknown colors fall back to white (background) or black (text), an
unknown display keyword falls back to `DisplayNone`. -/
def cascading_style (style : ComputedStyle) (declarations : List Declaration) :
    ComputedStyle :=
  declarations.foldl
    (fun st d =>
      if d.property = "background-color" then
        match d.value with
        | .ident v => { st with background_color := some ((Color.from_name v).getD Color.white) }
        | .hashToken code => { st with background_color := some ((Color.from_code code).getD Color.white) }
        | _ => st
      else if d.property = "color" then
        match d.value with
        | .ident v => { st with color := some ((Color.from_name v).getD Color.black) }
        | .hashToken code => { st with color := some ((Color.from_code code).getD Color.black) }
        | _ => st
      else if d.property = "display" then
        match d.value with
        | .ident v => { st with display := some ((DisplayType.from_str v).getD .displayNone) }
        | _ => st
      else st)
    style

/-- The cascading loop of `create_layout_object`: apply every rule whose
selector matches the node. -/
def applyRules (nk : NodeKind) (style : ComputedStyle) (rules : List QualifiedRule) :
    ComputedStyle :=
  rules.foldl
    (fun st rule =>
      if is_node_selected nk rule.selector then cascading_style st rule.declarations
      else st)
    style

/-- The style `create_layout_object` ends up with for a node: cascading
of every matching rule over a fresh style, then defaulting against the
parent style. -/
def resolvedStyle (nk : NodeKind) (parent_style : Option ComputedStyle)
    (cssom : StyleSheet) : ComputedStyle :=
  (applyRules nk ComputedStyle.new cssom.rules).defaulting nk parent_style

/-- The `LayoutObject::update_kind`; `none` models the panics for a Document
node and for a `display:none` node (and for the unset-display getter). -/
def update_kind (nk : NodeKind) (style : ComputedStyle) : Option LayoutObjectKind :=
  match nk with
  | .document => none
  | .element _ =>
    match style.display with
    | some .block => some .block
    | some .inline => some .inline
    | some .displayNone => none
    | none => none
  | .text _ => some .text

/-- A DOM node as the layout tree builder sees it: its kind plus the
`first_child` and `next_sibling` owning links. -/
inductive DomNode where
  | mk (kind : NodeKind) (first_child : Option DomNode) (next_sibling : Option DomNode)

/-- The node kind of a `DomNode`. -/
def DomNode.kind : DomNode → NodeKind
  | .mk k _ _ => k

/-- The first child of a `DomNode`. -/
def DomNode.first_child : DomNode → Option DomNode
  | .mk _ fc _ => fc

/-- The next sibling of a `DomNode`. -/
def DomNode.next_sibling : DomNode → Option DomNode
  | .mk _ _ ns => ns

/-- Result of `create_layout_object`: a created object (its kind and
computed style), suppression (`None`: no node, or `display:none`), or a
crash (`update_kind` panic). -/
inductive CreateRes where
  | obj (kind : LayoutObjectKind) (style : ComputedStyle)
  | suppressed
  | crash
deriving DecidableEq, Repr

/-- The `create_layout_object` from layout_object.rs. The parent layout
object is represented by its computed style (the only part the function
reads). -/
def create_layout_object (node : Option DomNode) (parent_style : Option ComputedStyle)
    (cssom : StyleSheet) : CreateRes :=
  match node with
  | none => .suppressed
  | some n =>
    let style := resolvedStyle n.kind parent_style cssom
    if style.display = some .displayNone then .suppressed
    else
      match update_kind n.kind style with
      | some k => .obj k style
      | none => .crash

/-- A node of the built layout tree: kind, computed style, the underlying
DOM node kind, and the two owning links. -/
inductive LayoutTree where
  | mk (kind : LayoutObjectKind) (style : ComputedStyle) (dom_kind : NodeKind)
       (first_child : Option LayoutTree) (next_sibling : Option LayoutTree)

/-- Result of `build_layout_tree`: a (possibly empty) layout subtree or a
crash. -/
inductive BuildRes where
  | tree (t : Option LayoutTree)
  | crash

/-- Number of nodes of a DOM subtree (used only to pick ample fuel). -/
def domSize : Option DomNode → Nat
  | none => 0
  | some (.mk _ fc ns) => 1 + domSize fc + domSize ns

mutual

/-- The `build_layout_tree` from layout_view.rs: create the layout object for
the node (walking `next_sibling` links while creation yields none —
the `while layout_object.is_none()` loop), then recurse into the found
node's first child (parented under the new object) and next sibling
(parented under `None`), re-running the sibling fallback search when a
produced object's child or sibling link came back empty. Fuel bounds the
recursion depth generously. -/
def build_layout_treeAux : Nat → Option DomNode → Option ComputedStyle → StyleSheet → BuildRes
  | 0, _, _, _ => .crash
  | fuel + 1, node, parent_style, cssom =>
    match node with
    | none => .tree none
    | some n =>
      match create_layout_object (some n) parent_style cssom with
      | .crash => .crash
      | .suppressed => build_layout_treeAux fuel n.next_sibling parent_style cssom
      | .obj k style =>
        match build_layout_treeAux fuel n.first_child (some style) cssom with
        | .crash => .crash
        | .tree fc0 =>
          match build_layout_treeAux fuel n.next_sibling none cssom with
          | .crash => .crash
          | .tree ns0 =>
            let fcRes : BuildRes :=
              match fc0, n.first_child with
              | none, some ofc => fallbackSearchAux fuel ofc.next_sibling (some style) cssom
              | _, _ => .tree fc0
            match fcRes with
            | .crash => .crash
            | .tree fc =>
              let nsRes : BuildRes :=
                match ns0, n.next_sibling with
                | none, some ons => fallbackSearchAux fuel ons.next_sibling none cssom
                | _, _ => .tree ns0
              match nsRes with
              | .crash => .crash
              | .tree ns => .tree (some (.mk k style n.kind fc ns))

/-- The `loop` in `build_layout_tree` that retries the build on further
next siblings while it yields no layout object. -/
def fallbackSearchAux : Nat → Option DomNode → Option ComputedStyle → StyleSheet → BuildRes
  | 0, _, _, _ => .crash
  | fuel + 1, odn, parent_style, cssom =>
    match build_layout_treeAux fuel odn parent_style cssom with
    | .crash => .crash
    | .tree r =>
      match r, odn with
      | none, some d => fallbackSearchAux fuel d.next_sibling parent_style cssom
      | _, _ => .tree r

end

/-- The `build_layout_tree` with ample fuel for its input. -/
def build_layout_tree (node : Option DomNode) (parent_style : Option ComputedStyle)
    (cssom : StyleSheet) : BuildRes :=
  build_layout_treeAux (4 * domSize node + 8) node parent_style cssom

/-- The DOM node kind stored in a layout tree node. -/
def LayoutTree.dom_kind : LayoutTree → NodeKind
  | .mk _ _ dk _ _ => dk

/-- The first child of a layout tree node. -/
def LayoutTree.first_child : LayoutTree → Option LayoutTree
  | .mk _ _ _ fc _ => fc

/-- The next sibling of a layout tree node. -/
def LayoutTree.next_sibling : LayoutTree → Option LayoutTree
  | .mk _ _ _ _ ns => ns

/-- The DOM node kinds of a layout (sub)tree in document order (node,
then children, then following siblings); the fuel bounds the traversal
depth. -/
def layoutDomKinds : Nat → Option LayoutTree → List NodeKind
  | 0, _ => []
  | _ + 1, none => []
  | fuel + 1, some t =>
    t.dom_kind :: (layoutDomKinds fuel t.first_child ++ layoutDomKinds fuel t.next_sibling)

/-- The DOM node kinds reachable in a build result (up to the given
traversal depth). -/
def buildDomKinds (fuel : Nat) : BuildRes → Option (List NodeKind)
  | .crash => none
  | .tree t => some (layoutDomKinds fuel t)

/-! ## Sizing engine (layout_object.rs `compute_size`; constants.rs is not
under src/, its constants are modelled from the spec) -/

/-- Modelled from the spec: fixed character width constant
(`CHAR_WIDTH`; exact value not under src/, no claim depends on it). -/
def CHAR_WIDTH : Int := 8

/-- Modelled from the spec: fixed character height-with-padding constant
(`CHAR_HEIGHT_WITH_PADDING`; exact value not under src/). -/
def CHAR_HEIGHT_WITH_PADDING : Int := 20

/-- Modelled from the spec: fixed content-area width constant
(`CONTENT_AREA_WIDTH`; exact value not under src/). -/
def CONTENT_AREA_WIDTH : Int := 1024

/-- The `LayoutSize` from layout_object.rs (`i64` embedded as `Int`). -/
structure LayoutSize where
  width : Int
  height : Int
deriving DecidableEq, Repr

/-- A layout object as `compute_size` sees it: its own kind, underlying
DOM node kind and computed style. Its child chain (the
`first_child`/`next_sibling` list, whose sizes the post-order driver in
layout_view.rs has already computed) is passed to `compute_size` as an
explicit list of (kind, size) pairs in document order. -/
structure LBoxNode where
  kind : LayoutObjectKind
  node_kind : NodeKind
  style : ComputedStyle
deriving DecidableEq, Repr

/-- The Block branch's child loop in `compute_size`: walk the child
chain, adding a child's height when the previous child kind (initialized
to Block by the caller) or the child itself is Block. -/
def blockHeightLoop : List (LayoutObjectKind × LayoutSize) → LayoutObjectKind → Int
  | [], _ => 0
  | (k, sz) :: rest, previous_child_kind =>
    (if previous_child_kind = .block ∨ k = .block then sz.height else 0) +
      blockHeightLoop rest k

/-- The Inline branch's child loop in `compute_size`: sum the children's
widths and heights. -/
def inlineSizeLoop : List (LayoutObjectKind × LayoutSize) → LayoutSize
  | [] => ⟨0, 0⟩
  | (_, sz) :: rest =>
    let r := inlineSizeLoop rest
    ⟨sz.width + r.width, sz.height + r.height⟩

/-- The `LayoutObject::compute_size` from layout_object.rs, returning the new
size; `children` is the box's child chain in document order. The text
branch reads the resolved font size (the missing getter's unset case is
taken as medium; after defaulting it is always set). -/
def LBoxNode.compute_size (b : LBoxNode) (children : List (LayoutObjectKind × LayoutSize))
    (parent_size : LayoutSize) : LayoutSize :=
  match b.kind with
  | .block => ⟨parent_size.width, blockHeightLoop children .block⟩
  | .inline => inlineSizeLoop children
  | .text =>
    match b.node_kind with
    | .text t =>
      let ratio : Int :=
        match b.style.font_size.getD .medium with
        | .medium => 1
        | .xLarge => 2
        | .xxLarge => 3
      let width := CHAR_WIDTH * ratio * (t.length : Int)
      if width > CONTENT_AREA_WIDTH then
        let line_num :=
          if width % CONTENT_AREA_WIDTH = 0 then width / CONTENT_AREA_WIDTH
          else width / CONTENT_AREA_WIDTH + 1
        ⟨CONTENT_AREA_WIDTH, CHAR_HEIGHT_WITH_PADDING * ratio * line_num⟩
      else ⟨width, CHAR_HEIGHT_WITH_PADDING * ratio⟩
    | _ => ⟨0, 0⟩

/-- Height counted the way a previous-kind tracker counts it: a child's
height is added when the child is a Block or the tracked previous kind is
a Block. -/
def trackedHeight (previous : Option LayoutObjectKind) :
    List (LayoutObjectKind × LayoutSize) → Int
  | [] => 0
  | (k, sz) :: rest =>
    (if k = .block ∨ previous = some .block then sz.height else 0) +
      trackedHeight (some k) rest

/-- The claim's Block height, read literally: a child's height counts
exactly when the child is a Block or the previous child in sequence was a
Block; the first child has no previous child. -/
def claimBlockHeight (children : List (LayoutObjectKind × LayoutSize)) : Int :=
  trackedHeight none children

/-- The amended Block height: as the claim, except that the first child
always counts (the source initializes the previous-kind tracker to
Block). -/
def amendedBlockHeight (children : List (LayoutObjectKind × LayoutSize)) : Int :=
  trackedHeight (some .block) children

/-! ## Auxiliary definitions for the theorems -/

/-- Whether a tokenizer state belongs to the raw-text (ScriptData) state
family. -/
def inScriptFamily : State → Bool
  | .ScriptData => true
  | .ScriptDataLessThanSign => true
  | .ScriptDataEndTagOpen => true
  | .ScriptDataEndTagName => true
  | .TemporaryBuffer => true
  | _ => false

/-- Iterate `HtmlTokenizer::next` a number of times, keeping the
tokenizer unchanged once it is exhausted or crashed. -/
def iterateTok : Nat → HtmlTokenizer → HtmlTokenizer
  | 0, tk => tk
  | n + 1, tk =>
    match nextTok tk with
    | .tok _ tk2 => iterateTok n tk2
    | _ => tk

/-- A stylesheet whose only rule suppresses `p` elements
(`p { display: none; }`). -/
def c5Sheet : StyleSheet :=
  ⟨[⟨Selector.typeSelector "p", [⟨"display", CssToken.ident "none"⟩]⟩]⟩

/-- A `h1` DOM element with no children and no siblings. -/
def c5H1 : DomNode := DomNode.mk (.element ⟨.h1, []⟩) none none

/-- A `p` DOM element with a text child, whose next sibling is the `h1`. -/
def c5P : DomNode := DomNode.mk (.element ⟨.p, []⟩) (some (DomNode.mk (.text "hi") none none)) (some c5H1)

/-- A Block layout box (a `body` element). -/
def c9Box : LBoxNode := ⟨.block, .element ⟨.body, []⟩, ComputedStyle.new⟩

/-- A child chain holding a single Inline box of height 5. -/
def c9Children : List (LayoutObjectKind × LayoutSize) := [(.inline, ⟨7, 5⟩)]

/-- A child chain Block(height 3), Inline(height 4), Inline(height 6):
the first inline is block-adjacent, the second is not. -/
def c9Children2 : List (LayoutObjectKind × LayoutSize) :=
  [(.block, ⟨10, 3⟩), (.inline, ⟨10, 4⟩), (.inline, ⟨10, 6⟩)]

/-! ## Theorems -/

/-- C1: in InBody an `a` start tag is routed to `insert_element`, but
`Element::new` panics because `ElementKind::from_str` has no arm for
`"a"`, so `construct_tree` aborts instead of inserting the element and
returning a `Window`; the sibling branches for `p` do insert and
continue. The theorem evaluates the embedded parser at the failing input
`<body><a>` (crash), exhibits the missing `from_str` arm, and contrasts
with `<body><p>` (a `p` child of `body`, normal return). -/
theorem c1_inbody_a_start_tag_crashes :
    parseHtml "<body><a>".toList = PRes.crash ∧
    ElementKind.from_str "a" = none ∧
    bodyChildrenOf (parseHtml "<body><p>".toList) =
      some [NodeKind.element ⟨.p, []⟩] := by
  refine ⟨by decide, by decide, by decide⟩

/-- C2: inserting character data under a parent that already has two
children attaches the new text node as `next_sibling` of the FIRST child
(`insert_char` has no last-sibling walk), so the second `p` element is
dropped from the body's first-child/next-sibling chain even though two
`p` elements were created: the chain does not visit each existing child
plus the new node. The theorem evaluates the embedded parser at
`<body><p></p><p></p>x`. -/
theorem c2_insert_char_detaches_second_child :
    bodyChildrenOf (parseHtml "<body><p></p><p></p>x".toList) =
      some [NodeKind.element ⟨.p, []⟩, NodeKind.text "x"] ∧
    pElementCount (parseHtml "<body><p></p><p></p>x".toList) = 2 := by
  refine ⟨by decide, by decide⟩

/-- C3: an end tag `p` in InBody with no open `p` on the stack reaches
`pop_until`, whose `assert!(contain_in_stack(...))` panics, so the run
aborts instead of ignoring the token; a matched end tag works. The
theorem evaluates the embedded parser at the failing input `<body></p>`
(crash) and at `<body><p></p>` (normal return). -/
theorem c3_unmatched_end_tag_crashes :
    parseHtml "<body></p>".toList = PRes.crash ∧
    bodyChildrenOf (parseHtml "<body><p></p>".toList) =
      some [NodeKind.element ⟨.p, []⟩] := by
  refine ⟨by decide, by decide⟩

/-- C7: the tokenizer call on input `<` crashes: after consuming `<` the
Data state transitions to TagOpen and the loop immediately indexes
`input[1]` on a length-1 input (`consume_next_input` has no bounds
check), a panic rather than returning a token or nothing. -/
theorem c7_tokenizer_crashes_on_lone_less_than :
    nextTok (HtmlTokenizer.new ['<']) = TokNext.crash ∧
    tokenizerCrashes ['<'] = true := by
  refine ⟨by decide, by decide⟩

/-- C6 counterexample: for input `a` the emitted token sequence is just
`Char 'a'` and contains no EndOfInput token at all, so the sequence does
not contain exactly one Eof as its final element. -/
theorem c6_cex_no_eof_token_emitted :
    tokensOf ['a'] = [HtmlToken.char 'a'] ∧
    HtmlToken.eof ∉ tokensOf ['a'] := by
  refine ⟨by decide, by decide⟩

/-- C4 counterexample: after the `script` start tag of
`<script>1<2</script>` the `<` before `2` is not emitted as a Char token
(the tokenizer stays in the Data state family, so the `<` is consumed as
markup and dropped); the claim requires every interior character
including `<` to be emitted as a Char token. -/
theorem c4_cex_less_than_dropped_in_script :
    tokensOf "<script>1<2</script>".toList =
      [HtmlToken.startTag "script" false [], HtmlToken.char '1',
       HtmlToken.char '2', HtmlToken.endTag "script"] ∧
    HtmlToken.char '<' ∉ tokensOf "<script>1<2</script>".toList := by
  refine ⟨by decide, by decide⟩

/-- C8 counterexample: on the style-token input consisting of the single
delimiter token `@` the rule parser hits the explicit parse-error panic
in `consume_selector` (a `Delim` other than `.`), so rule-list
consumption aborts instead of recovering with `UnknownSelector`. -/
theorem c8_cex_delim_selector_panics :
    parse_stylesheet [CssToken.delim '@'] = none := by decide

/-- The Block child loop equals the previous-kind-tracked sum over the
child chain, for any initial tracker value. -/
theorem blockHeightLoop_eq_trackedHeight (children : List (LayoutObjectKind × LayoutSize)) :
    ∀ k : LayoutObjectKind, blockHeightLoop children k = trackedHeight (some k) children := by
  induction children with
  | nil => intro k; rfl
  | cons c rest ih =>
    intro k
    obtain ⟨k2, sz⟩ := c
    rw [blockHeightLoop, trackedHeight, ih k2]
    have hcond : (k = LayoutObjectKind.block ∨ k2 = LayoutObjectKind.block) ↔
        (k2 = LayoutObjectKind.block ∨
          (some k : Option LayoutObjectKind) = some LayoutObjectKind.block) := by
      simp [or_comm]
    rw [if_congr hcond rfl rfl]

/-- C9 counterexample: a Block box whose single child is an Inline box of
height 5 gets height 5 from `compute_size` (the previous-kind tracker
starts as Block, so the first child is always counted), while the claim
as stated — a child counts exactly when it is a Block or the previous
child was a Block — yields height 0; so `compute_size` does not set the
size the claim describes. -/
theorem c9_cex_first_inline_child_counted :
    c9Box.compute_size c9Children ⟨100, 0⟩ ≠
      ⟨100, claimBlockHeight c9Children⟩ := by decide

/-- C9 (amended): for every Block-kind LayoutObject and parent size,
`compute_size` sets the width to the parent's width and the height to the
sum of the children's heights counting a child exactly when it is a
Block, or the previous child was a Block, or it is the first child (the
source initializes the previous-kind tracker to Block). -/
theorem c9_amended_block_size (b : LBoxNode)
    (children : List (LayoutObjectKind × LayoutSize)) (parent_size : LayoutSize)
    (h : b.kind = LayoutObjectKind.block) :
    b.compute_size children parent_size =
      ⟨parent_size.width, amendedBlockHeight children⟩ := by
  rw [LBoxNode.compute_size, h, amendedBlockHeight, ← blockHeightLoop_eq_trackedHeight]

/-- C9 witness: the amended theorem applied to a concrete Block box with
children Block(3), Inline(4), Inline(6): width 50 from the parent and
height 3 + 4 + 0 = 7 (the trailing inline is not block-adjacent). -/
theorem c9_amended_block_size_witness :
    c9Box.kind = LayoutObjectKind.block ∧
    c9Box.compute_size c9Children2 ⟨50, 0⟩ = ⟨50, amendedBlockHeight c9Children2⟩ ∧
    amendedBlockHeight c9Children2 = 7 :=
  ⟨by decide, c9_amended_block_size c9Box c9Children2 ⟨50, 0⟩ (by decide), by decide⟩

/-- Cascading never changes the style of a non-element node: no selector
matches it, so `applyRules` is the identity there. -/
theorem applyRules_text (s : String) (rules : List QualifiedRule) :
    ∀ st : ComputedStyle, applyRules (NodeKind.text s) st rules = st := by
  induction rules with
  | nil => intro st; rfl
  | cons r rest ih =>
    intro st
    have hsel : is_node_selected (NodeKind.text s) r.selector = false := rfl
    simp only [applyRules, List.foldl_cons, hsel] at *
    simpa using ih st

/-- C10: for every Selector, `is_node_selected` returns false on a
Document or Text node; consequently a Text node's resolved style is
exactly the defaulting of a fresh style (no cascaded rule ever applies),
and `create_layout_object` on a Text node is independent of the
stylesheet. -/
theorem c10_document_and_text_never_selected :
    (∀ sel : Selector, is_node_selected NodeKind.document sel = false) ∧
    (∀ (s : String) (sel : Selector), is_node_selected (NodeKind.text s) sel = false) ∧
    (∀ (s : String) (p : Option ComputedStyle) (css : StyleSheet),
      resolvedStyle (NodeKind.text s) p css =
        ComputedStyle.defaulting ComputedStyle.new (NodeKind.text s) p) ∧
    (∀ (s : String) (fc ns : Option DomNode) (p : Option ComputedStyle) (css : StyleSheet),
      create_layout_object (some (DomNode.mk (NodeKind.text s) fc ns)) p css =
        create_layout_object (some (DomNode.mk (NodeKind.text s) fc ns)) p ⟨[]⟩) := by
  refine ⟨fun _ => rfl, fun _ _ => rfl, ?_, ?_⟩
  · intro s p css
    rw [resolvedStyle, applyRules_text]
  · intro s fc ns p css
    have h1 : resolvedStyle (DomNode.mk (NodeKind.text s) fc ns).kind p css =
        ComputedStyle.defaulting ComputedStyle.new (NodeKind.text s) p := by
      rw [DomNode.kind, resolvedStyle, applyRules_text]
    have h2 : resolvedStyle (DomNode.mk (NodeKind.text s) fc ns).kind p ⟨[]⟩ =
        ComputedStyle.defaulting ComputedStyle.new (NodeKind.text s) p := by
      rw [DomNode.kind, resolvedStyle, applyRules_text]
    rw [create_layout_object, create_layout_object, h1, h2]

/-- C5: whenever a DOM node's cascaded and defaulted display resolves to
none, `create_layout_object` yields no layout object, and
`build_layout_tree` on that node equals `build_layout_tree` on its next
sibling — the node and its entire subtree contribute nothing, and the
siblings' layout objects are still built and form the result. -/
theorem c5_display_none_suppresses_subtree :
    ∀ (n : DomNode) (p : Option ComputedStyle) (css : StyleSheet),
      (resolvedStyle n.kind p css).display = some DisplayType.displayNone →
      create_layout_object (some n) p css = CreateRes.suppressed ∧
      ∀ fuel : Nat,
        build_layout_treeAux (fuel + 1) (some n) p css =
          build_layout_treeAux fuel n.next_sibling p css := by
  intro n p css h
  have hc : create_layout_object (some n) p css = CreateRes.suppressed := by
    rw [create_layout_object, if_pos h]
  refine ⟨hc, fun fuel => ?_⟩
  rw [build_layout_treeAux]
  rw [hc]

/-- C5 witness: with the stylesheet `p { display: none; }`, the `p` node
(which has a text child and an `h1` next sibling) resolves to
display:none, is suppressed with its subtree, and the built layout tree
consists exactly of the sibling `h1`. -/
theorem c5_display_none_suppresses_subtree_witness :
    (resolvedStyle c5P.kind none c5Sheet).display = some DisplayType.displayNone ∧
    create_layout_object (some c5P) none c5Sheet = CreateRes.suppressed ∧
    build_layout_treeAux 20 (some c5P) none c5Sheet =
      build_layout_treeAux 19 c5P.next_sibling none c5Sheet ∧
    buildDomKinds 64 (build_layout_treeAux 64 (some c5P) none c5Sheet) =
      some [NodeKind.element ⟨.h1, []⟩] :=
  ⟨by decide, (c5_display_none_suppresses_subtree c5P none c5Sheet (by decide)).1,
   (c5_display_none_suppresses_subtree c5P none c5Sheet (by decide)).2 19,
   by decide⟩

/-- C8 (amended): a declaration missing its colon is dropped (no
declaration, parsing resumes after the offending token); an unknown
at-rule is parsed and discarded with rule-list consumption continuing; a
selector beginning with an unrecognized non-delimiter token (for example
a number) consumes one extra token and yields UnknownSelector; but a
delimiter token other than `.` in selector position panics instead of
recovering. -/
theorem c8_amended_style_recovery :
    (∀ (prop : String) (t : CssToken) (rest : List CssToken), t ≠ CssToken.colon →
      consume_declaration (CssToken.ident prop :: t :: rest) = CssRes.ok none rest) ∧
    (∀ k : String,
      parse_stylesheet [CssToken.atKeyword k, CssToken.openCurly, CssToken.closeCurly,
          CssToken.ident "p", CssToken.openCurly, CssToken.closeCurly] =
        some ⟨[⟨Selector.typeSelector "p", []⟩]⟩) ∧
    (∀ (v : Int) (rest : List CssToken),
      consume_selector (CssToken.number v :: rest) =
        CssRes.ok Selector.unknownSelector rest.tail) ∧
    (∀ (c : Char) (rest : List CssToken), c ≠ '.' →
      consume_selector (CssToken.delim c :: rest) = CssRes.crash) := by
  refine ⟨?_, fun k => rfl, fun v rest => rfl, ?_⟩
  · intro prop t rest ht
    cases t <;> first | rfl | exact absurd rfl ht
  · intro c rest h
    rw [consume_selector, if_neg h]

/-- C8 witness: the amended theorem applied at concrete inputs — the
colon-less declaration `color red;` is dropped leaving the stream at the
semicolon, the at-rule `@media {} p {}` leaves exactly the `p` rule, a
number-led selector yields UnknownSelector, and the `@` delimiter
selector crashes. -/
theorem c8_amended_style_recovery_witness :
    consume_declaration [CssToken.ident "color", CssToken.ident "red", CssToken.semiColon] =
      CssRes.ok none [CssToken.semiColon] ∧
    parse_stylesheet [CssToken.atKeyword "media", CssToken.openCurly, CssToken.closeCurly,
        CssToken.ident "p", CssToken.openCurly, CssToken.closeCurly] =
      some ⟨[⟨Selector.typeSelector "p", []⟩]⟩ ∧
    consume_selector [CssToken.number 5] = CssRes.ok Selector.unknownSelector [] ∧
    consume_selector [CssToken.delim '@'] = CssRes.crash :=
  ⟨c8_amended_style_recovery.1 "color" (CssToken.ident "red") [CssToken.semiColon] (by decide),
   c8_amended_style_recovery.2.1 "media",
   c8_amended_style_recovery.2.2.1 5 [],
   c8_amended_style_recovery.2.2.2 '@' [] (by decide)⟩

/-- Character acquisition keeps the cursor within bounds and does not
touch input, state or the pending tag token. -/
theorem readChar_inv {tk : HtmlTokenizer} {c : Char} {tk1 : HtmlTokenizer}
    (hpos : tk.pos ≤ tk.input.length) (h : readChar tk = some (c, tk1)) :
    tk1.pos ≤ tk1.input.length ∧ tk1.input = tk.input ∧ tk1.state = tk.state ∧
      tk1.latest_token = tk.latest_token := by
  unfold readChar at h
  by_cases hr : tk.reconsume
  · rw [if_pos hr] at h
    by_cases h0 : tk.pos = 0
    · rw [if_pos h0] at h
      exact absurd h (by simp)
    · rw [if_neg h0] at h
      rcases hg : tk.input.get? (tk.pos - 1) with _ | c2 <;> rw [hg] at h
      · exact absurd h (by simp)
      · injection h with h2
        injection h2 with hc htk
        subst htk
        exact ⟨hpos, rfl, rfl, rfl⟩
  · rw [if_neg hr] at h
    rcases hg : tk.input.get? tk.pos with _ | c2 <;> rw [hg] at h
    · exact absurd h (by simp)
    · have hlt : tk.pos < tk.input.length := by
        by_contra hge
        rw [List.get?_eq_none.mpr (Nat.le_of_not_lt hge)] at hg
        exact absurd hg (by simp)
      injection h with h2
      injection h2 with hc htk
      subst htk
      refine ⟨by simpa using hlt, rfl, rfl, rfl⟩

set_option maxHeartbeats 12000000 in
/-- Master invariant of one `HtmlTokenizer::next` loop: starting from an
in-bounds cursor and a pending tag token that is not Eof, a returned
token is never Eof (the `is_eof` guards require `pos > input.len()`,
which the cursor never reaches), the invariant is re-established, the
input is unchanged, and the ScriptData state family is never entered from
outside it. -/
theorem nextAux_inv :
    ∀ (fuel : Nat) (tk : HtmlTokenizer) (t : HtmlToken) (tk2 : HtmlTokenizer),
      tk.pos ≤ tk.input.length → tk.latest_token ≠ some HtmlToken.eof →
      nextAux fuel tk = TokNext.tok t tk2 →
      t ≠ HtmlToken.eof ∧ tk2.pos ≤ tk2.input.length ∧ tk2.input = tk.input ∧
        tk2.latest_token ≠ some HtmlToken.eof ∧
        (inScriptFamily tk.state = false → inScriptFamily tk2.state = false) := by
  intro fuel
  induction fuel with
  | zero =>
    intro tk t tk2 _ _ h
    exact absurd h (by simp [nextAux])
  | succ n ih =>
    intro tk t tk2 hpos hlatest h
    rw [nextAux] at h
    rcases hrc : readChar tk with _ | ⟨c, tk1⟩ <;> rw [hrc] at h
    · exact absurd h (by simp)
    obtain ⟨h1pos, h1inp, h1st, h1lat⟩ := readChar_inv hpos hrc
    rw [← h1inp, ← h1st]
    rw [← h1lat] at hlatest
    have step : ∀ T : HtmlTokenizer, T.pos ≤ T.input.length → T.input = tk1.input →
        T.latest_token ≠ some HtmlToken.eof →
        (inScriptFamily tk1.state = false → inScriptFamily T.state = false) →
        nextAux n T = TokNext.tok t tk2 →
        t ≠ HtmlToken.eof ∧ tk2.pos ≤ tk2.input.length ∧ tk2.input = tk1.input ∧
          tk2.latest_token ≠ some HtmlToken.eof ∧
          (inScriptFamily tk1.state = false → inScriptFamily tk2.state = false) := by
      intro T hTpos hTinp hTlat hTst hstep
      obtain ⟨a, b, hinp2, hl2, hs2⟩ := ih T t tk2 hTpos hTlat hstep
      exact ⟨a, b, by rw [hinp2, hTinp], hl2, fun hf => hs2 (hTst hf)⟩
    clear hrc hpos ih h1inp h1st h1lat
    simp only [HtmlTokenizer.create_tag, HtmlTokenizer.take_latest_token,
      HtmlTokenizer.append_tag_name, HtmlTokenizer.start_new_attribute,
      HtmlTokenizer.append_attribute, HtmlTokenizer.set_self_closing_flag] at h
    rcases hl : tk1.latest_token with _ | (⟨tag, sc, attrs⟩ | ⟨tag⟩ | ⟨ch⟩ | _) <;>
      (try exact absurd rfl (hl ▸ hlatest)) <;>
      (try simp only [hl] at h) <;>
      (try rcases hga : attrs.getLast? with _ | a) <;>
      (try simp only [hga] at h) <;>
      repeat' split at h
    all_goals first
    | (refine absurd h ?_
       simp
       done)
    | (refine step _ ?_ ?_ ?_ ?_ h
       · simp_all
         done
       · simp
         done
       · simp_all
         done
       · intro hf
         simp_all [inScriptFamily]
         done)
    | (injection h with ht htk
       subst ht
       subst htk
       clear step
       refine ⟨?_, ?_, ?_, ?_, fun hf => ?_⟩
       · simp_all
         done
       · simp_all
         done
       · simp
         done
       · simp_all
         done
       · simp_all [inScriptFamily]
         done)
    | (exfalso
       clear h step hlatest hl
       simp only [HtmlTokenizer.is_eof, decide_eq_true_eq] at *
       omega)
    | (simp_all
       done)

/-- The invariant lifted to a full `next` call (entry guard included). -/
theorem nextTok_inv (tk : HtmlTokenizer) (t : HtmlToken) (tk2 : HtmlTokenizer)
    (hpos : tk.pos ≤ tk.input.length) (hlat : tk.latest_token ≠ some HtmlToken.eof)
    (h : nextTok tk = TokNext.tok t tk2) :
    t ≠ HtmlToken.eof ∧ tk2.pos ≤ tk2.input.length ∧ tk2.input = tk.input ∧
      tk2.latest_token ≠ some HtmlToken.eof ∧
      (inScriptFamily tk.state = false → inScriptFamily tk2.state = false) := by
  rw [nextTok] at h
  split at h
  · exact absurd h (by simp)
  · exact nextAux_inv _ tk t tk2 hpos hlat h

/-- No call in a token-collection run ever produces the Eof token. -/
theorem runTokens_no_eof :
    ∀ (fuel : Nat) (tk : HtmlTokenizer),
      tk.pos ≤ tk.input.length → tk.latest_token ≠ some HtmlToken.eof →
      HtmlToken.eof ∉ (runTokens fuel tk).1 := by
  intro fuel
  induction fuel with
  | zero => intro tk _ _; simp [runTokens]
  | succ n ih =>
    intro tk hpos hlat
    rw [runTokens]
    rcases hn : nextTok tk with ⟨t, tk2⟩ | _ | _ <;> simp only [hn]
    · obtain ⟨ht, hpos2, _, hlat2, _⟩ := nextTok_inv tk t tk2 hpos hlat hn
      intro hmem
      rcases List.mem_cons.mp hmem with h1 | h2
      · exact ht h1.symm
      · exact ih tk2 hpos2 hlat2 h2
    · simp
    · simp

/-- C6 (amended): the tokenizer never emits an EndOfInput token — for
every input the emitted token sequence contains no Eof (the `is_eof`
guards require the cursor to pass the end, which never happens) — and
once the cursor has reached the input length every further `next` call
returns nothing. -/
theorem c6_amended_no_eof_and_stable_exhaustion :
    (∀ s : List Char, HtmlToken.eof ∉ tokensOf s) ∧
    (∀ tk : HtmlTokenizer, tk.input.length ≤ tk.pos → nextTok tk = TokNext.exhausted) := by
  constructor
  · intro s
    exact runTokens_no_eof _ _ (by simp [HtmlTokenizer.new]) (by simp [HtmlTokenizer.new])
  · intro tk h
    rw [nextTok, if_pos (by omega)]

/-- C6 witness: the amended theorem applied to the input `a` and to the
exhausted tokenizer it leaves behind. -/
theorem c6_amended_witness :
    HtmlToken.eof ∉ tokensOf ['a'] ∧
    nextTok ⟨.Data, 1, false, none, ['a'], ""⟩ = TokNext.exhausted :=
  ⟨c6_amended_no_eof_and_stable_exhaustion.1 ['a'],
   c6_amended_no_eof_and_stable_exhaustion.2 _ (by decide)⟩

/-- The tokenizer invariant carried through any number of `next` calls. -/
theorem iterateTok_inv :
    ∀ (n : Nat) (tk : HtmlTokenizer),
      tk.pos ≤ tk.input.length → tk.latest_token ≠ some HtmlToken.eof →
      inScriptFamily tk.state = false →
      (iterateTok n tk).pos ≤ (iterateTok n tk).input.length ∧
        (iterateTok n tk).latest_token ≠ some HtmlToken.eof ∧
        inScriptFamily (iterateTok n tk).state = false := by
  intro n
  induction n with
  | zero => intro tk h1 h2 h3; exact ⟨h1, h2, h3⟩
  | succ m ih =>
    intro tk h1 h2 h3
    rw [iterateTok]
    rcases hn : nextTok tk with ⟨t, tk2⟩ | _ | _ <;> simp only [hn]
    · obtain ⟨_, hpos2, _, hlat2, hst2⟩ := nextTok_inv tk t tk2 h1 h2 hn
      exact ih tk2 hpos2 hlat2 (hst2 h3)
    · exact ⟨h1, h2, h3⟩
    · exact ⟨h1, h2, h3⟩

/-- C4 (amended): starting from the initial Data state, the tokenizer
never enters the ScriptData state family, however many `next` calls are
made on whatever input — the raw-text states are dead code, so
script/style content is tokenized by the ordinary markup states (the tree
constructor never switches the tokenizer). -/
theorem c4_amended_scriptdata_unreachable :
    ∀ (n : Nat) (s : List Char),
      inScriptFamily ((iterateTok n (HtmlTokenizer.new s)).state) = false := by
  intro n s
  exact (iterateTok_inv n _ (by simp [HtmlTokenizer.new]) (by simp [HtmlTokenizer.new])
    (by simp [HtmlTokenizer.new, inScriptFamily])).2.2
